import Mathlib

/-!
Verification of the MeetXAccel frontend availability contract.

This file embeds, in Lean 4, the data shapes and client logic of the
meeting-scheduling frontend (src/types/api.ts, src/services/api.ts, the
availability dashboard page, the dashboard layout, and the registration
form), together with a model of the availability cache engine that the
frontend consumes through its REST API.  Theorems at the end settle the
specification claims against these definitions.
-/

/-! ## Client request model (src/services/api.ts) -/

/-- Query parameters accepted by publicApi.getAvailableSlots
(src/services/api.ts, lines 217 to 225): start_date, end_date and
timezone are required, attendee_count is optional. -/
structure SlotsParams where
  start_date : String
  end_date : String
  timezone : String
  attendee_count : Option Int

/-- Serialized query-parameter list for a slots request, as axios sends it:
the three required keys in declaration order, and attendee_count only when
the caller supplied it (axios drops undefined values). -/
def slotsParamList (p : SlotsParams) : List (String × String) :=
  [("start_date", p.start_date), ("end_date", p.end_date), ("timezone", p.timezone)] ++
    (match p.attendee_count with
     | some n => [("attendee_count", toString n)]
     | none => [])

/-- URL path of the slots request built by publicApi.getAvailableSlots. -/
def getAvailableSlotsPath (organizerSlug eventTypeSlug : String) : String :=
  "/events/slots/" ++ organizerSlug ++ "/" ++ eventTypeSlug ++ "/"

/-- An HTTP GET request as issued by the client: a path and query params. -/
structure HttpGetRequest where
  path : String
  params : List (String × String)

/-- The request publicApi.getAvailableSlots issues for given slugs and params. -/
def getAvailableSlotsRequest (organizerSlug eventTypeSlug : String)
    (p : SlotsParams) : HttpGetRequest :=
  { path := getAvailableSlotsPath organizerSlug eventTypeSlug,
    params := slotsParamList p }

/-! ## Response types (src/types/api.ts) -/

/-- Per-invitee projected times inside AvailableSlot.invitee_times
(src/types/api.ts, lines 583 to 588). -/
structure InviteeTimeEntry where
  start_time : String
  end_time : String
  start_hour : Int
  end_hour : Int

/-- AvailableSlot (src/types/api.ts, lines 576 to 590).  Fields marked with
a question mark in TypeScript are Option here. -/
structure AvailableSlot where
  start_time : String
  end_time : String
  duration_minutes : Int
  local_start_time : Option String
  local_end_time : Option String
  available_spots : Option Int
  invitee_times : Option (List (String × InviteeTimeEntry))
  fairness_score : Option Rat

/-- AvailabilityResponse (src/types/api.ts, lines 592 to 605).  The required
fields are plain, the two optional fields are Option. -/
structure AvailabilityResponse where
  organizer_slug : String
  event_type_slug : String
  start_date : String
  end_date : String
  invitee_timezone : String
  attendee_count : Int
  available_slots : List AvailableSlot
  cache_hit : Bool
  total_slots : Int
  computation_time_ms : Int
  multi_invitee_mode : Option Bool
  invitee_timezones : Option (List String)

/-- Client-side error surfaced by the axios layer. -/
inductive ApiError where
  | badStatus (code : Nat)
  | network

/-- A server model for the slots endpoint: what the remote API answers to
a given GET request. -/
def SlotsServer : Type :=
  HttpGetRequest → Except ApiError AvailabilityResponse

/-- publicApi.getAvailableSlots (src/services/api.ts, lines 217 to 225):
issue the GET request for the two slugs and the params, and return the
typed response body on success. -/
def getAvailableSlots (server : SlotsServer) (organizerSlug eventTypeSlug : String)
    (p : SlotsParams) : Except ApiError AvailabilityResponse :=
  server (getAvailableSlotsRequest organizerSlug eventTypeSlug p)

/-- A concrete successful response used to exhibit that the optional fields
may be absent. -/
def sampleSlot : AvailableSlot :=
  { start_time := "2025-01-06T09:00:00Z"
    end_time := "2025-01-06T09:30:00Z"
    duration_minutes := 30
    local_start_time := none
    local_end_time := none
    available_spots := some 1
    invitee_times := none
    fairness_score := none }

/-- A concrete AvailabilityResponse with both optional fields absent. -/
def sampleResponse : AvailabilityResponse :=
  { organizer_slug := "alice"
    event_type_slug := "intro-call"
    start_date := "2025-01-06"
    end_date := "2025-01-10"
    invitee_timezone := "UTC"
    attendee_count := 1
    available_slots := [sampleSlot]
    cache_hit := true
    total_slots := 1
    computation_time_ms := 12
    multi_invitee_mode := none
    invitee_timezones := none }

/-- A concrete AvailabilityResponse with both optional fields present. -/
def sampleMultiResponse : AvailabilityResponse :=
  { sampleResponse with
    multi_invitee_mode := some true
    invitee_timezones := some ["UTC", "America/New_York"] }

/-! ## Cache management client calls (src/services/api.ts, AvailabilityPage) -/

/-- An HTTP POST request with an integer-valued JSON body, as the cache
management calls send it. -/
structure HttpPostRequest where
  path : String
  body : List (String × Int)

/-- availabilityApi.precomputeCache (src/services/api.ts, lines 341 to 344):
posts to the precompute endpoint with days_ahead equal to its argument;
an absent argument serializes to an empty body because axios drops
undefined values. -/
def precomputeCache (daysAhead : Option Int) : HttpPostRequest :=
  { path := "/availability/cache/precompute/",
    body :=
      match daysAhead with
      | some n => [("days_ahead", n)]
      | none => [] }

/-- A react-query mutation as the dashboard configures it: the request it
fires and the toast shown on success. -/
structure MutationModel where
  request : HttpPostRequest
  onSuccessToast : String

/-- precomputeCacheMutation (src/pages/availability/AvailabilityPage.tsx,
lines 187 to 192): fires precomputeCache with 14 days ahead and reports
that precomputation started. -/
def precomputeCacheMutation : MutationModel :=
  { request := precomputeCache (some 14),
    onSuccessToast := "Cache precomputation started" }

/-! ## Buffer settings (src/types/api.ts lines 234-241, AvailabilityPage) -/

/-- BufferTime (src/types/api.ts, lines 234 to 241): the record the client
fetches from the buffer endpoint. -/
structure BufferTime where
  default_buffer_before : Int
  default_buffer_after : Int
  minimum_gap : Int
  slot_interval_minutes : Int
  created_at : String
  updated_at : String

/-- Field names of the BufferTime interface, in declaration order. -/
def bufferTimeFieldNames : List String :=
  ["default_buffer_before", "default_buffer_after", "minimum_gap",
   "slot_interval_minutes", "created_at", "updated_at"]

/-- Form data of the buffer settings form (bufferSchema in
src/pages/availability/AvailabilityPage.tsx, lines 60 to 65). -/
structure BufferFormData where
  default_buffer_before : Int
  default_buffer_after : Int
  minimum_gap : Int
  slot_interval_minutes : Int

/-- Field names of the buffer settings form schema, in declaration order. -/
def bufferSchemaFieldNames : List String :=
  ["default_buffer_before", "default_buffer_after", "minimum_gap",
   "slot_interval_minutes"]

/-- Validation of bufferSchema: each numeric field is range checked. -/
def bufferSchema (b : BufferFormData) : Bool :=
  (decide (0 ≤ b.default_buffer_before) && decide (b.default_buffer_before ≤ 120)) &&
  (decide (0 ≤ b.default_buffer_after) && decide (b.default_buffer_after ≤ 120)) &&
  (decide (0 ≤ b.minimum_gap) && decide (b.minimum_gap ≤ 60)) &&
  (decide (5 ≤ b.slot_interval_minutes) && decide (b.slot_interval_minutes ≤ 60))

/-! ## BlockedTime (src/types/api.ts, lines 205 to 217) -/

/-- The source union of BlockedTime: five string-literal alternatives in
the TypeScript type. -/
inductive BlockedTimeSource where
  | manual
  | google_calendar
  | outlook_calendar
  | apple_calendar
  | external_sync
deriving DecidableEq

/-- BlockedTime (src/types/api.ts, lines 205 to 217). -/
structure BlockedTime where
  id : String
  start_datetime : String
  end_datetime : String
  reason : String
  source : BlockedTimeSource
  source_display : String
  external_id : String
  external_updated_at : Option String
  is_active : Bool
  created_at : String
  updated_at : String

/-- A concrete BlockedTime whose source is a synced Google calendar event. -/
def googleCalendarBlock : BlockedTime :=
  { id := "b1"
    start_datetime := "2024-12-01T10:00:00Z"
    end_datetime := "2024-12-01T11:00:00Z"
    reason := "synced busy slot"
    source := BlockedTimeSource.google_calendar
    source_display := "Google Calendar"
    external_id := "evt-1"
    external_updated_at := none
    is_active := true
    created_at := "2024-11-30T00:00:00Z"
    updated_at := "2024-11-30T00:00:00Z" }

/-! ## Weekly rule form (ruleSchema in AvailabilityPage.tsx, lines 27-32) -/

/-- Form data of the weekly availability rule form. -/
structure RuleFormData where
  day_of_week : Int
  start_time : String
  end_time : String
  is_active : Bool

/-- Validation of ruleSchema: day_of_week between 0 and 6, start and end
times of length at least one (the zod min 1 string check). -/
def ruleSchema (r : RuleFormData) : Bool :=
  (decide (0 ≤ r.day_of_week) && decide (r.day_of_week ≤ 6)) &&
  decide (1 ≤ r.start_time.length) &&
  decide (1 ≤ r.end_time.length)

/-! ## Registration form (schema in the RegisterPage source) -/

/-- Character test for the final character of the local part of an email in
the zod email pattern: a letter, a digit, an underscore, a plus or a minus. -/
def isEmailAtomChar (c : Char) : Bool :=
  c.isAlphanum || c = '_' || c = '+' || c = '-'

/-- Character test for the local part of an email in the zod email pattern:
the atom characters plus the dot and the apostrophe (character code 39). -/
def isEmailLocalChar (c : Char) : Bool :=
  isEmailAtomChar c || c = '.' || c = Char.ofNat 39

/-- Rejects two consecutive dots anywhere in the character list. -/
def noDoubleDot : List Char → Bool
  | [] => true
  | [_] => true
  | a :: b :: rest => !(a = '.' && b = '.') && noDoubleDot (b :: rest)

/-- Splits a character list at every occurrence of the separator. -/
def splitOnChar (sep : Char) : List Char → List (List Char)
  | [] => [[]]
  | c :: rest =>
    if c = sep then [] :: splitOnChar sep rest
    else
      match splitOnChar sep rest with
      | [] => [[c]]
      | g :: gs => (c :: g) :: gs

/-- A domain label of the zod email pattern: an alphanumeric character
followed by alphanumerics and hyphens. -/
def isDomainLabel (l : List Char) : Bool :=
  match l with
  | [] => false
  | c :: rest => c.isAlphanum && rest.all (fun d => d.isAlphanum || d = '-')

/-- A top-level domain of the zod email pattern: at least two letters. -/
def isTld (l : List Char) : Bool :=
  decide (2 ≤ l.length) && l.all Char.isAlpha

/-- Domain part of the zod email pattern: one or more labels, each followed
by a dot, then a top-level domain. -/
def zodEmailDomainCheck (domain : List Char) : Bool :=
  let ls := splitOnChar '.' domain
  decide (2 ≤ ls.length) && ls.dropLast.all isDomainLabel &&
    (match ls.getLast? with
     | some t => isTld t
     | none => false)

/-- Modelled third-party library behavior: the well-formed email check the
zod string email refinement performs, transcribed from its anchored email
pattern (no leading dot, no double dot, a local part over the permitted
character set ending in an atom character, one at sign, then a dotted
domain). -/
def zodEmailCheck (s : String) : Bool :=
  match splitOnChar '@' s.data with
  | [localPart, domainPart] =>
    (match localPart.head? with
     | some h => !(h = '.')
     | none => false) &&
    noDoubleDot s.data &&
    localPart.all isEmailLocalChar &&
    (match localPart.getLast? with
     | some c => isEmailAtomChar c
     | none => false) &&
    zodEmailDomainCheck domainPart
  | _ => false

/-- Form data of the registration form: first_name required, last_name and
username optional, email, password, password_confirm and terms_accepted. -/
structure RegisterFormData where
  first_name : String
  last_name : Option String
  username : Option String
  email : String
  password : String
  password_confirm : String
  terms_accepted : Bool

/-- Issue paths produced by the base object checks of the registration
schema, before the cross-field refinement: first_name needs length at
least one, email must pass the email refinement, password needs length at
least eight, terms_accepted must be true.  last_name and username are
optional and unchecked. -/
def registerBaseIssuePaths (f : RegisterFormData) : List (List String) :=
  (if 1 ≤ f.first_name.length then [] else [["first_name"]]) ++
  (if zodEmailCheck f.email then [] else [["email"]]) ++
  (if 8 ≤ f.password.length then [] else [["password"]]) ++
  (if f.terms_accepted then [] else [["terms_accepted"]])

/-- Issue paths of the full registration schema: the object-level
refinement comparing password and password_confirm runs only when every
base check passed, and attaches its issue to the password_confirm path. -/
def registerSchema (f : RegisterFormData) : List (List String) :=
  match registerBaseIssuePaths f with
  | [] => if f.password = f.password_confirm then [] else [["password_confirm"]]
  | issues => issues

/-! ## Page title resolution (getPageTitle in the dashboard layout) -/

/-- The routes table of getPageTitle, in object insertion order. -/
def dashboardRoutes : List (String × String) :=
  [("/dashboard", "Dashboard"),
   ("/dashboard/event-types", "Event Types"),
   ("/dashboard/bookings", "Bookings"),
   ("/dashboard/availability", "Availability"),
   ("/dashboard/contacts", "Contacts"),
   ("/dashboard/workflows", "Workflows"),
   ("/dashboard/notifications", "Notifications"),
   ("/dashboard/integrations", "Integrations"),
   ("/dashboard/analytics", "Analytics"),
   ("/dashboard/settings", "Settings")]

/-- The JavaScript startsWith test on pathnames: the route is a prefix of
the pathname. -/
def pathStartsWith (pathname route : String) : Bool :=
  route.data.isPrefixOf pathname.data

/-- getPageTitle from the dashboard layout source: exact route match first,
then the first route in table order that is a prefix of the pathname and
is not the bare dashboard route, then the Dashboard fallback. -/
def getPageTitle (pathname : String) : String :=
  match dashboardRoutes.lookup pathname with
  | some title => title
  | none =>
    match dashboardRoutes.find? (fun e => pathStartsWith pathname e.1 && e.1 != "/dashboard") with
    | some e => e.2
    | none => "Dashboard"

/-! ## Availability cache engine

The engine behind the slots endpoint is not part of this repository; the
definitions below model the cache layer the specification describes, so
that its stated invariants can be settled.  Organizer identifiers are
natural numbers; the rule aggregate and the slot type are parameters, and
the cold slot computation is an arbitrary function of the rule aggregate
and the cache key, so every theorem below holds for any concrete engine
with this caching discipline. -/

/-- Modelled from the spec: the cache key of the cache layer, keyed by
organizer, event type, date window and timezone; the engine that owns it
is not in this repository. -/
structure CacheKey where
  organizer_id : Nat
  event_type_id : Nat
  window_start : Nat
  window_end : Nat
  timezone : String
deriving DecidableEq

/-- Modelled from the spec: the state of the cache layer, which is not in
this repository: the per-organizer rule aggregate, the per-organizer
generation stamp, and the cache table whose entries carry the generation
they were computed under. -/
structure EngineState (Rules Slot : Type) where
  rules : Nat → Rules
  gen : Nat → Nat
  cache : CacheKey → Option (List Slot × Nat)

/-- Modelled from the spec: storing one cache entry computed cold from the
current rules, stamped with the current generation. -/
def cacheStore {Rules Slot : Type} (compute : Rules → CacheKey → List Slot)
    (s : EngineState Rules Slot) (k : CacheKey) : EngineState Rules Slot :=
  { s with
    cache := fun k2 =>
      if k2 = k then some (compute (s.rules k.organizer_id) k, s.gen k.organizer_id)
      else s.cache k2 }

/-- Modelled from the spec: the read-through get of the cache layer, which
is not in this repository.  A stored entry whose generation stamp matches
the current generation of the organizer is served with cache_hit true;
otherwise the slots are computed cold, stored, and served with cache_hit
false. -/
def cacheGet {Rules Slot : Type} (compute : Rules → CacheKey → List Slot)
    (s : EngineState Rules Slot) (k : CacheKey) :
    (List Slot × Bool) × EngineState Rules Slot :=
  match s.cache k with
  | some (slots, g) =>
    if g = s.gen k.organizer_id then ((slots, true), s)
    else ((compute (s.rules k.organizer_id) k, false), cacheStore compute s k)
  | none => ((compute (s.rules k.organizer_id) k, false), cacheStore compute s k)

/-- Modelled from the spec: precompute of the cache layer, which is not in
this repository, here given the explicit list of keys it eagerly computes
and stores entries for. -/
def cachePrecompute {Rules Slot : Type} (compute : Rules → CacheKey → List Slot)
    (s : EngineState Rules Slot) : List CacheKey → EngineState Rules Slot
  | [] => s
  | k :: ks => cachePrecompute compute (cacheStore compute s k) ks

/-- Modelled from the spec: invalidate of the cache layer, which is not in
this repository: bump the generation stamp of one organizer so every
existing entry of that organizer is treated as stale on the next read. -/
def invalidateOrganizer {Rules Slot : Type} (s : EngineState Rules Slot)
    (o : Nat) : EngineState Rules Slot :=
  { s with gen := fun o2 => if o2 = o then s.gen o2 + 1 else s.gen o2 }

/-- Modelled from the spec: a committed rule mutation (create, update or
delete collapse to replacing the rule aggregate), which invalidates the
organizer before the mutation is acknowledged. -/
def mutateRules {Rules Slot : Type} (s : EngineState Rules Slot) (o : Nat)
    (r : Rules) : EngineState Rules Slot :=
  invalidateOrganizer
    { s with rules := fun o2 => if o2 = o then r else s.rules o2 } o

/-- Modelled from the spec: the operations observable against the engine
after a mutation commit. -/
inductive EngineOp (Rules : Type) where
  | query (k : CacheKey)
  | precompute (ks : List CacheKey)
  | mutate (o : Nat) (r : Rules)

/-- Runs one engine operation for its state effect. -/
def execOp {Rules Slot : Type} (compute : Rules → CacheKey → List Slot)
    (s : EngineState Rules Slot) : EngineOp Rules → EngineState Rules Slot
  | EngineOp.query k => (cacheGet compute s k).2
  | EngineOp.precompute ks => cachePrecompute compute s ks
  | EngineOp.mutate o r => mutateRules s o r

/-- Runs a list of engine operations in order. -/
def execOps {Rules Slot : Type} (compute : Rules → CacheKey → List Slot)
    (s : EngineState Rules Slot) : List (EngineOp Rules) → EngineState Rules Slot
  | [] => s
  | op :: ops => execOps compute (execOp compute s op) ops

/-- Freshness invariant: every cache entry whose stamp matches the current
generation of its organizer holds exactly the cold computation over the
current rules. -/
def FreshInv {Rules Slot : Type} (compute : Rules → CacheKey → List Slot)
    (s : EngineState Rules Slot) : Prop :=
  ∀ k slots g, s.cache k = some (slots, g) → g = s.gen k.organizer_id →
    slots = compute (s.rules k.organizer_id) k

/-- Stamp invariant: no cache entry is stamped beyond the current
generation of its organizer. -/
def StampInv {Rules Slot : Type} (s : EngineState Rules Slot) : Prop :=
  ∀ k slots g, s.cache k = some (slots, g) → g ≤ s.gen k.organizer_id

/-- The engine invariant: freshness and stamp bounds together. -/
def EngineInv {Rules Slot : Type} (compute : Rules → CacheKey → List Slot)
    (s : EngineState Rules Slot) : Prop :=
  FreshInv compute s ∧ StampInv s

/-! ## Helper lemmas -/

theorem cacheStore_rules {Rules Slot : Type} (compute : Rules → CacheKey → List Slot)
    (s : EngineState Rules Slot) (k : CacheKey) :
    (cacheStore compute s k).rules = s.rules := rfl

theorem cacheStore_gen {Rules Slot : Type} (compute : Rules → CacheKey → List Slot)
    (s : EngineState Rules Slot) (k : CacheKey) :
    (cacheStore compute s k).gen = s.gen := rfl

theorem cachePrecompute_rules {Rules Slot : Type} (compute : Rules → CacheKey → List Slot)
    (s : EngineState Rules Slot) (ks : List CacheKey) :
    (cachePrecompute compute s ks).rules = s.rules := by
  induction ks generalizing s with
  | nil => rfl
  | cons k ks ih => exact ih (cacheStore compute s k)

theorem cachePrecompute_gen {Rules Slot : Type} (compute : Rules → CacheKey → List Slot)
    (s : EngineState Rules Slot) (ks : List CacheKey) :
    (cachePrecompute compute s ks).gen = s.gen := by
  induction ks generalizing s with
  | nil => rfl
  | cons k ks ih => exact ih (cacheStore compute s k)

theorem cachePrecompute_cache_not_mem {Rules Slot : Type}
    (compute : Rules → CacheKey → List Slot) (s : EngineState Rules Slot)
    (ks : List CacheKey) (k : CacheKey) (h : k ∉ ks) :
    (cachePrecompute compute s ks).cache k = s.cache k := by
  induction ks generalizing s with
  | nil => rfl
  | cons k0 ks ih =>
    have hne : k ≠ k0 := fun he => h (he ▸ List.mem_cons_self k0 ks)
    have hrest : k ∉ ks := fun hm => h (List.mem_cons_of_mem k0 hm)
    rw [cachePrecompute, ih (cacheStore compute s k0) hrest]
    simp [cacheStore, hne]

theorem cachePrecompute_cache_mem {Rules Slot : Type}
    (compute : Rules → CacheKey → List Slot) (s : EngineState Rules Slot)
    (ks : List CacheKey) (k : CacheKey) (h : k ∈ ks) :
    (cachePrecompute compute s ks).cache k =
      some (compute (s.rules k.organizer_id) k, s.gen k.organizer_id) := by
  induction ks generalizing s with
  | nil => cases h
  | cons k0 ks ih =>
    by_cases hrest : k ∈ ks
    · rw [cachePrecompute, ih (cacheStore compute s k0) hrest]
      rfl
    · have hk0 : k = k0 := by
        rcases List.mem_cons.mp h with h1 | h1
        · exact h1
        · exact absurd h1 hrest
      subst hk0
      rw [cachePrecompute, cachePrecompute_cache_not_mem compute _ ks k hrest]
      simp [cacheStore]

theorem engineInv_cacheStore {Rules Slot : Type}
    (compute : Rules → CacheKey → List Slot) (s : EngineState Rules Slot)
    (k : CacheKey) (h : EngineInv compute s) :
    EngineInv compute (cacheStore compute s k) := by
  obtain ⟨hf, hs⟩ := h
  constructor
  · intro k2 slots g hc hg
    by_cases hk : k2 = k
    · subst hk
      rw [show (cacheStore compute s k2).cache k2 =
            some (compute (s.rules k2.organizer_id) k2, s.gen k2.organizer_id) by
          simp [cacheStore]] at hc
      injection hc with hc
      injection hc with hc1 hc2
      exact hc1.symm
    · rw [show (cacheStore compute s k).cache k2 = s.cache k2 by
          simp [cacheStore, hk]] at hc
      exact hf k2 slots g hc hg
  · intro k2 slots g hc
    by_cases hk : k2 = k
    · subst hk
      rw [show (cacheStore compute s k2).cache k2 =
            some (compute (s.rules k2.organizer_id) k2, s.gen k2.organizer_id) by
          simp [cacheStore]] at hc
      injection hc with hc
      injection hc with hc1 hc2
      exact hc2 ▸ Nat.le_refl _
    · rw [show (cacheStore compute s k).cache k2 = s.cache k2 by
          simp [cacheStore, hk]] at hc
      exact hs k2 slots g hc

theorem gen_le_cacheGet {Rules Slot : Type} (compute : Rules → CacheKey → List Slot)
    (s : EngineState Rules Slot) (k : CacheKey) (o : Nat) :
    s.gen o ≤ ((cacheGet compute s k).2).gen o := by
  cases hc : s.cache k with
  | none =>
    simp only [cacheGet, hc]
    exact Nat.le_refl _
  | some v =>
    rcases v with ⟨slots, g⟩
    simp only [cacheGet, hc]
    by_cases hg : g = s.gen k.organizer_id
    · rw [if_pos hg]
    · rw [if_neg hg]
      exact Nat.le_refl _

theorem gen_le_execOp {Rules Slot : Type} (compute : Rules → CacheKey → List Slot)
    (s : EngineState Rules Slot) (op : EngineOp Rules) (o : Nat) :
    s.gen o ≤ (execOp compute s op).gen o := by
  cases op with
  | query k => exact gen_le_cacheGet compute s k o
  | precompute ks => rw [execOp, cachePrecompute_gen]
  | mutate o2 r =>
    show s.gen o ≤ (if o = o2 then s.gen o + 1 else s.gen o)
    by_cases h : o = o2
    · rw [if_pos h]; exact Nat.le_succ _
    · rw [if_neg h]

theorem gen_le_execOps {Rules Slot : Type} (compute : Rules → CacheKey → List Slot)
    (s : EngineState Rules Slot) (ops : List (EngineOp Rules)) (o : Nat) :
    s.gen o ≤ (execOps compute s ops).gen o := by
  induction ops generalizing s with
  | nil => exact Nat.le_refl _
  | cons op ops ih =>
    exact Nat.le_trans (gen_le_execOp compute s op o) (ih (execOp compute s op))

theorem mutateRules_gen_self {Rules Slot : Type} (s : EngineState Rules Slot)
    (o : Nat) (r : Rules) : (mutateRules s o r).gen o = s.gen o + 1 := by
  simp [mutateRules, invalidateOrganizer]

theorem string_ne_empty_iff (s : String) : s ≠ "" ↔ 1 ≤ s.length := by
  cases s with
  | mk data =>
    show (String.mk data ≠ String.mk []) ↔ 1 ≤ data.length
    constructor
    · intro h
      cases data with
      | nil => exact absurd rfl h
      | cons c cs => exact Nat.succ_le_succ (Nat.zero_le _)
    · intro h he
      injection he with he
      subst he
      exact absurd h (by decide)

theorem isPrefixOf_eq_true_iff (a b : List Char) : a.isPrefixOf b = true ↔ a <+: b :=
  List.isPrefixOf_iff_prefix

theorem pathStartsWith_disjoint (p a b : String) (hpa : pathStartsWith p a = true)
    (hab : a.data.isPrefixOf b.data = false) (hba : b.data.isPrefixOf a.data = false) :
    pathStartsWith p b = false := by
  by_contra hpb
  rw [Bool.not_eq_false] at hpb
  have h1 : a.data <+: p.data := (isPrefixOf_eq_true_iff _ _).mp hpa
  have h2 : b.data <+: p.data := (isPrefixOf_eq_true_iff _ _).mp hpb
  rcases List.prefix_or_prefix_of_prefix h1 h2 with h | h
  · have := (isPrefixOf_eq_true_iff a.data b.data).mpr h
    rw [this] at hab
    exact Bool.noConfusion hab
  · have := (isPrefixOf_eq_true_iff b.data a.data).mpr h
    rw [this] at hba
    exact Bool.noConfusion hba

/-! ## Claim theorems -/

/-- C3: every successful result of publicApi.getAvailableSlots is an
AvailabilityResponse carrying an available_slots list of AvailableSlot, a
boolean cache_hit, a numeric total_slots and a numeric
computation_time_ms, while multi_invitee_mode and invitee_timezones are
optional and may be absent or present. -/
theorem availabilityResponse_shape :
    (∀ (server : SlotsServer) (org evt : String) (p : SlotsParams)
        (r : AvailabilityResponse),
        getAvailableSlots server org evt p = Except.ok r →
        ∃ (slots : List AvailableSlot) (hit : Bool) (total ms : Int),
          r.available_slots = slots ∧ r.cache_hit = hit ∧
          r.total_slots = total ∧ r.computation_time_ms = ms) ∧
    (∃ r : AvailabilityResponse,
        r.multi_invitee_mode = none ∧ r.invitee_timezones = none) ∧
    (∃ r : AvailabilityResponse,
        r.multi_invitee_mode ≠ none ∧ r.invitee_timezones ≠ none) := by
  refine ⟨?_, ⟨sampleResponse, rfl, rfl⟩, ⟨sampleMultiResponse, ?_, ?_⟩⟩
  · intro server org evt p r _
    exact ⟨r.available_slots, r.cache_hit, r.total_slots, r.computation_time_ms,
      rfl, rfl, rfl, rfl⟩
  · exact fun h => Option.noConfusion h
  · exact fun h => Option.noConfusion h

/-- C3 witness: the shape theorem applied to a concrete server that
answers the sample response. -/
theorem availabilityResponse_shape_witness :
    ∃ (slots : List AvailableSlot) (hit : Bool) (total ms : Int),
      sampleResponse.available_slots = slots ∧ sampleResponse.cache_hit = hit ∧
      sampleResponse.total_slots = total ∧ sampleResponse.computation_time_ms = ms :=
  availabilityResponse_shape.1 (fun _ => Except.ok sampleResponse) "alice"
    "intro-call" ⟨"2025-01-06", "2025-01-10", "UTC", none⟩ sampleResponse rfl

/-- C4 counterexample: no request built by publicApi.getAvailableSlots can
carry an invitee_timezones parameter, so the claim that the request comes
with an optional list of multiple invitee timezones fails on the client
code: its parameter type only admits start_date, end_date, timezone and
attendee_count. -/
theorem getAvailableSlots_no_inviteeTimezones_param :
    ¬ ∃ p : SlotsParams, "invitee_timezones" ∈ (slotsParamList p).map Prod.fst := by
  rintro ⟨p, hp⟩
  rcases p with ⟨sd, ed, tz, ac⟩
  cases ac <;> simp [slotsParamList] at hp

/-- C4 amended: every slot request carries the two slugs in the URL path
and exactly the parameters start_date, end_date and timezone, plus
attendee_count exactly when the caller supplied it; there is no parameter
for multiple invitee timezones. -/
theorem getAvailableSlots_request_shape :
    ∀ (org evt : String) (p : SlotsParams),
      (getAvailableSlotsRequest org evt p).path =
        "/events/slots/" ++ org ++ "/" ++ evt ++ "/" ∧
      (getAvailableSlotsRequest org evt p).params =
        [("start_date", p.start_date), ("end_date", p.end_date),
         ("timezone", p.timezone)] ++
          (match p.attendee_count with
           | some n => [("attendee_count", toString n)]
           | none => []) :=
  fun _ _ _ => ⟨rfl, rfl⟩

/-- C5 counterexample: neither the BufferTime record fetched from the
buffer endpoint nor the buffer settings form schema has the field list
buffer_before, buffer_after, minimum_gap, slot_interval_minutes claimed by
the specification. -/
theorem bufferTime_fields_counterexample :
    bufferTimeFieldNames ≠
      ["buffer_before", "buffer_after", "minimum_gap", "slot_interval_minutes"] ∧
    bufferSchemaFieldNames ≠
      ["buffer_before", "buffer_after", "minimum_gap", "slot_interval_minutes"] := by
  decide

/-- C5 amended: the buffer settings form patches exactly
default_buffer_before, default_buffer_after, minimum_gap and
slot_interval_minutes, and the fetched BufferTime record carries those
four fields plus the created_at and updated_at timestamps. -/
theorem bufferTime_fields_correct :
    bufferSchemaFieldNames =
      ["default_buffer_before", "default_buffer_after", "minimum_gap",
       "slot_interval_minutes"] ∧
    bufferTimeFieldNames = bufferSchemaFieldNames ++ ["created_at", "updated_at"] :=
  ⟨rfl, rfl⟩

/-- C6: precomputeCache posts to the precompute endpoint with days_ahead
equal to its argument, and the availability dashboard invokes it with 14
days ahead, surfacing success as a started acknowledgment. -/
theorem precomputeCache_request_and_ack :
    (∀ n : Int,
      (precomputeCache (some n)).path = "/availability/cache/precompute/" ∧
      (precomputeCache (some n)).body = [("days_ahead", n)]) ∧
    precomputeCacheMutation.request = precomputeCache (some 14) ∧
    precomputeCacheMutation.onSuccessToast = "Cache precomputation started" :=
  ⟨fun _ => ⟨rfl, rfl⟩, rfl, rfl⟩

/-- C7: the weekly rule form accepts a submission exactly when day_of_week
lies between 0 and 6 and both time strings are non-empty, and rejects every
submission whose day_of_week is below 0 or above 6. -/
theorem ruleSchema_accepts_iff :
    (∀ r : RuleFormData, ruleSchema r = true ↔
        (0 ≤ r.day_of_week ∧ r.day_of_week ≤ 6 ∧
         r.start_time ≠ "" ∧ r.end_time ≠ "")) ∧
    (∀ r : RuleFormData,
        (r.day_of_week < 0 ∨ 6 < r.day_of_week) → ruleSchema r = false) := by
  have h1 : ∀ r : RuleFormData, ruleSchema r = true ↔
      (0 ≤ r.day_of_week ∧ r.day_of_week ≤ 6 ∧
       r.start_time ≠ "" ∧ r.end_time ≠ "") := by
    intro r
    simp [ruleSchema, string_ne_empty_iff, and_assoc]
  refine ⟨h1, ?_⟩
  intro r h
  by_contra hval
  rw [Bool.not_eq_false] at hval
  obtain ⟨ha, hb, -, -⟩ := (h1 r).mp hval
  rcases h with h | h <;> omega

/-- C7 witness: a day_of_week of 7 is rejected, a day_of_week of 2 with
non-empty times is accepted. -/
theorem ruleSchema_accepts_iff_witness :
    ruleSchema ⟨7, "09:00", "17:00", true⟩ = false ∧
    ruleSchema ⟨2, "09:00", "17:00", true⟩ = true :=
  ⟨ruleSchema_accepts_iff.2 ⟨7, "09:00", "17:00", true⟩ (Or.inr (by decide)),
   (ruleSchema_accepts_iff.1 ⟨2, "09:00", "17:00", true⟩).mpr (by decide)⟩

/-- C8 counterexample: a BlockedTime synced from Google Calendar has a
source that is neither manual nor external_sync, so the claim that every
BlockedTime source is one of those two fails. -/
theorem blockedTime_source_counterexample :
    ¬(googleCalendarBlock.source = BlockedTimeSource.manual ∨
      googleCalendarBlock.source = BlockedTimeSource.external_sync) := by
  decide

/-- C8 amended: every BlockedTime source is one of manual,
google_calendar, outlook_calendar, apple_calendar or external_sync. -/
theorem blockedTime_source_cases :
    ∀ b : BlockedTime,
      b.source = BlockedTimeSource.manual ∨
      b.source = BlockedTimeSource.google_calendar ∨
      b.source = BlockedTimeSource.outlook_calendar ∨
      b.source = BlockedTimeSource.apple_calendar ∨
      b.source = BlockedTimeSource.external_sync := by
  intro b
  cases hs : b.source <;> simp

/-- The base object checks of the registration schema pass exactly when
first_name is non-empty, the email passes the email refinement, the
password has at least eight characters, and the terms are accepted. -/
theorem registerBase_nil_iff (f : RegisterFormData) :
    registerBaseIssuePaths f = [] ↔
      (f.first_name ≠ "" ∧ zodEmailCheck f.email = true ∧
       8 ≤ f.password.length ∧ f.terms_accepted = true) := by
  rw [string_ne_empty_iff]
  unfold registerBaseIssuePaths
  split_ifs with h1 h2 h3 h4 <;> simp_all

/-- C10: registration form validation succeeds exactly when first_name is
non-empty, the email is well formed, the password has at least eight
characters and equals its confirmation, and the terms are accepted; and
when only the two passwords differ, the single issue is attached to the
password_confirm field. -/
theorem registerSchema_accepts_iff :
    (∀ f : RegisterFormData, registerSchema f = [] ↔
        (f.first_name ≠ "" ∧ zodEmailCheck f.email = true ∧
         8 ≤ f.password.length ∧ f.password = f.password_confirm ∧
         f.terms_accepted = true)) ∧
    (∀ f : RegisterFormData,
        f.first_name ≠ "" → zodEmailCheck f.email = true →
        8 ≤ f.password.length → f.terms_accepted = true →
        f.password ≠ f.password_confirm →
        registerSchema f = [["password_confirm"]]) := by
  constructor
  · intro f
    unfold registerSchema
    cases hb : registerBaseIssuePaths f with
    | nil =>
      obtain ⟨h1, h2, h3, h4⟩ := (registerBase_nil_iff f).mp hb
      by_cases hp : f.password = f.password_confirm
      · rw [if_pos hp]
        constructor
        · intro _
          exact ⟨h1, h2, h3, hp, h4⟩
        · intro _
          rfl
      · rw [if_neg hp]
        constructor
        · intro he
          exact absurd he (List.cons_ne_nil _ _)
        · intro hc
          exact absurd hc.2.2.2.1 hp
    | cons a l =>
      have hne : ¬(f.first_name ≠ "" ∧ zodEmailCheck f.email = true ∧
          8 ≤ f.password.length ∧ f.terms_accepted = true) := by
        intro hc
        rw [(registerBase_nil_iff f).mpr hc] at hb
        exact List.noConfusion hb
      constructor
      · intro he
        exact absurd he (List.cons_ne_nil a l)
      · intro hc
        exact absurd ⟨hc.1, hc.2.1, hc.2.2.1, hc.2.2.2.2⟩ hne
  · intro f h1 h2 h3 h4 hp
    unfold registerSchema
    rw [(registerBase_nil_iff f).mpr ⟨h1, h2, h3, h4⟩]
    simp [hp]

/-- C10 witness: the schema theorem applied to two concrete submissions,
one with mismatched passwords and one fully valid. -/
theorem registerSchema_accepts_iff_witness :
    registerSchema ⟨"Ada", none, none, "ada@example.com", "secret123", "secret124", true⟩ =
      [["password_confirm"]] ∧
    registerSchema ⟨"Ada", none, none, "ada@example.com", "secret123", "secret123", true⟩ = [] :=
  ⟨registerSchema_accepts_iff.2 _ (by decide) (by decide) (by decide) rfl (by decide),
   (registerSchema_accepts_iff.1 _).mpr (by decide)⟩

/-- C9: getPageTitle returns the mapped title on an exact route match;
otherwise the title of a route other than the bare dashboard route that
is a prefix of the pathname, when one exists; otherwise Dashboard, so
unknown dashboard subpaths fall back to Dashboard. -/
theorem getPageTitle_resolution :
    (∀ p t, dashboardRoutes.lookup p = some t → getPageTitle p = t) ∧
    (∀ p r t, dashboardRoutes.lookup p = none → (r, t) ∈ dashboardRoutes →
        r ≠ "/dashboard" → pathStartsWith p r = true → getPageTitle p = t) ∧
    (∀ p, dashboardRoutes.lookup p = none →
        (∀ e ∈ dashboardRoutes, e.1 = "/dashboard" ∨ pathStartsWith p e.1 = false) →
        getPageTitle p = "Dashboard") ∧
    getPageTitle "/dashboard/unknown" = "Dashboard" := by
  refine ⟨?_, ?_, ?_, by decide⟩
  · intro p t h
    unfold getPageTitle
    rw [h]
  · intro p r t hlookup hmem hne hpre
    unfold getPageTitle
    rw [hlookup]
    suffices hfind : dashboardRoutes.find?
        (fun e => pathStartsWith p e.1 && e.1 != "/dashboard") = some (r, t) by
      rw [hfind]
    simp only [dashboardRoutes, List.mem_cons, List.not_mem_nil, or_false,
      Prod.mk.injEq] at hmem
    rcases hmem with h | h | h | h | h | h | h | h | h | h
    · obtain ⟨rfl, rfl⟩ := h
      exact absurd rfl hne
    ·
      obtain ⟨rfl, rfl⟩ := h
      simp [dashboardRoutes, List.find?, hpre]
    ·
      obtain ⟨rfl, rfl⟩ := h
      have hf1 : pathStartsWith p "/dashboard/event-types" = false :=
        pathStartsWith_disjoint p "/dashboard/bookings" "/dashboard/event-types" hpre (by decide) (by decide)
      simp [dashboardRoutes, List.find?, hpre, hf1]
    ·
      obtain ⟨rfl, rfl⟩ := h
      have hf1 : pathStartsWith p "/dashboard/event-types" = false :=
        pathStartsWith_disjoint p "/dashboard/availability" "/dashboard/event-types" hpre (by decide) (by decide)
      have hf2 : pathStartsWith p "/dashboard/bookings" = false :=
        pathStartsWith_disjoint p "/dashboard/availability" "/dashboard/bookings" hpre (by decide) (by decide)
      simp [dashboardRoutes, List.find?, hpre, hf1, hf2]
    ·
      obtain ⟨rfl, rfl⟩ := h
      have hf1 : pathStartsWith p "/dashboard/event-types" = false :=
        pathStartsWith_disjoint p "/dashboard/contacts" "/dashboard/event-types" hpre (by decide) (by decide)
      have hf2 : pathStartsWith p "/dashboard/bookings" = false :=
        pathStartsWith_disjoint p "/dashboard/contacts" "/dashboard/bookings" hpre (by decide) (by decide)
      have hf3 : pathStartsWith p "/dashboard/availability" = false :=
        pathStartsWith_disjoint p "/dashboard/contacts" "/dashboard/availability" hpre (by decide) (by decide)
      simp [dashboardRoutes, List.find?, hpre, hf1, hf2, hf3]
    ·
      obtain ⟨rfl, rfl⟩ := h
      have hf1 : pathStartsWith p "/dashboard/event-types" = false :=
        pathStartsWith_disjoint p "/dashboard/workflows" "/dashboard/event-types" hpre (by decide) (by decide)
      have hf2 : pathStartsWith p "/dashboard/bookings" = false :=
        pathStartsWith_disjoint p "/dashboard/workflows" "/dashboard/bookings" hpre (by decide) (by decide)
      have hf3 : pathStartsWith p "/dashboard/availability" = false :=
        pathStartsWith_disjoint p "/dashboard/workflows" "/dashboard/availability" hpre (by decide) (by decide)
      have hf4 : pathStartsWith p "/dashboard/contacts" = false :=
        pathStartsWith_disjoint p "/dashboard/workflows" "/dashboard/contacts" hpre (by decide) (by decide)
      simp [dashboardRoutes, List.find?, hpre, hf1, hf2, hf3, hf4]
    ·
      obtain ⟨rfl, rfl⟩ := h
      have hf1 : pathStartsWith p "/dashboard/event-types" = false :=
        pathStartsWith_disjoint p "/dashboard/notifications" "/dashboard/event-types" hpre (by decide) (by decide)
      have hf2 : pathStartsWith p "/dashboard/bookings" = false :=
        pathStartsWith_disjoint p "/dashboard/notifications" "/dashboard/bookings" hpre (by decide) (by decide)
      have hf3 : pathStartsWith p "/dashboard/availability" = false :=
        pathStartsWith_disjoint p "/dashboard/notifications" "/dashboard/availability" hpre (by decide) (by decide)
      have hf4 : pathStartsWith p "/dashboard/contacts" = false :=
        pathStartsWith_disjoint p "/dashboard/notifications" "/dashboard/contacts" hpre (by decide) (by decide)
      have hf5 : pathStartsWith p "/dashboard/workflows" = false :=
        pathStartsWith_disjoint p "/dashboard/notifications" "/dashboard/workflows" hpre (by decide) (by decide)
      simp [dashboardRoutes, List.find?, hpre, hf1, hf2, hf3, hf4, hf5]
    ·
      obtain ⟨rfl, rfl⟩ := h
      have hf1 : pathStartsWith p "/dashboard/event-types" = false :=
        pathStartsWith_disjoint p "/dashboard/integrations" "/dashboard/event-types" hpre (by decide) (by decide)
      have hf2 : pathStartsWith p "/dashboard/bookings" = false :=
        pathStartsWith_disjoint p "/dashboard/integrations" "/dashboard/bookings" hpre (by decide) (by decide)
      have hf3 : pathStartsWith p "/dashboard/availability" = false :=
        pathStartsWith_disjoint p "/dashboard/integrations" "/dashboard/availability" hpre (by decide) (by decide)
      have hf4 : pathStartsWith p "/dashboard/contacts" = false :=
        pathStartsWith_disjoint p "/dashboard/integrations" "/dashboard/contacts" hpre (by decide) (by decide)
      have hf5 : pathStartsWith p "/dashboard/workflows" = false :=
        pathStartsWith_disjoint p "/dashboard/integrations" "/dashboard/workflows" hpre (by decide) (by decide)
      have hf6 : pathStartsWith p "/dashboard/notifications" = false :=
        pathStartsWith_disjoint p "/dashboard/integrations" "/dashboard/notifications" hpre (by decide) (by decide)
      simp [dashboardRoutes, List.find?, hpre, hf1, hf2, hf3, hf4, hf5, hf6]
    ·
      obtain ⟨rfl, rfl⟩ := h
      have hf1 : pathStartsWith p "/dashboard/event-types" = false :=
        pathStartsWith_disjoint p "/dashboard/analytics" "/dashboard/event-types" hpre (by decide) (by decide)
      have hf2 : pathStartsWith p "/dashboard/bookings" = false :=
        pathStartsWith_disjoint p "/dashboard/analytics" "/dashboard/bookings" hpre (by decide) (by decide)
      have hf3 : pathStartsWith p "/dashboard/availability" = false :=
        pathStartsWith_disjoint p "/dashboard/analytics" "/dashboard/availability" hpre (by decide) (by decide)
      have hf4 : pathStartsWith p "/dashboard/contacts" = false :=
        pathStartsWith_disjoint p "/dashboard/analytics" "/dashboard/contacts" hpre (by decide) (by decide)
      have hf5 : pathStartsWith p "/dashboard/workflows" = false :=
        pathStartsWith_disjoint p "/dashboard/analytics" "/dashboard/workflows" hpre (by decide) (by decide)
      have hf6 : pathStartsWith p "/dashboard/notifications" = false :=
        pathStartsWith_disjoint p "/dashboard/analytics" "/dashboard/notifications" hpre (by decide) (by decide)
      have hf7 : pathStartsWith p "/dashboard/integrations" = false :=
        pathStartsWith_disjoint p "/dashboard/analytics" "/dashboard/integrations" hpre (by decide) (by decide)
      simp [dashboardRoutes, List.find?, hpre, hf1, hf2, hf3, hf4, hf5, hf6, hf7]
    ·
      obtain ⟨rfl, rfl⟩ := h
      have hf1 : pathStartsWith p "/dashboard/event-types" = false :=
        pathStartsWith_disjoint p "/dashboard/settings" "/dashboard/event-types" hpre (by decide) (by decide)
      have hf2 : pathStartsWith p "/dashboard/bookings" = false :=
        pathStartsWith_disjoint p "/dashboard/settings" "/dashboard/bookings" hpre (by decide) (by decide)
      have hf3 : pathStartsWith p "/dashboard/availability" = false :=
        pathStartsWith_disjoint p "/dashboard/settings" "/dashboard/availability" hpre (by decide) (by decide)
      have hf4 : pathStartsWith p "/dashboard/contacts" = false :=
        pathStartsWith_disjoint p "/dashboard/settings" "/dashboard/contacts" hpre (by decide) (by decide)
      have hf5 : pathStartsWith p "/dashboard/workflows" = false :=
        pathStartsWith_disjoint p "/dashboard/settings" "/dashboard/workflows" hpre (by decide) (by decide)
      have hf6 : pathStartsWith p "/dashboard/notifications" = false :=
        pathStartsWith_disjoint p "/dashboard/settings" "/dashboard/notifications" hpre (by decide) (by decide)
      have hf7 : pathStartsWith p "/dashboard/integrations" = false :=
        pathStartsWith_disjoint p "/dashboard/settings" "/dashboard/integrations" hpre (by decide) (by decide)
      have hf8 : pathStartsWith p "/dashboard/analytics" = false :=
        pathStartsWith_disjoint p "/dashboard/settings" "/dashboard/analytics" hpre (by decide) (by decide)
      simp [dashboardRoutes, List.find?, hpre, hf1, hf2, hf3, hf4, hf5, hf6, hf7, hf8]
  · intro p hlookup hall
    unfold getPageTitle
    rw [hlookup]
    suffices hfind : dashboardRoutes.find?
        (fun e => pathStartsWith p e.1 && e.1 != "/dashboard") = none by
      rw [hfind]
    rw [List.find?_eq_none]
    rintro ⟨r, t⟩ hmem
    rcases hall (r, t) hmem with h | h
    · have hr : r = "/dashboard" := h
      subst hr
      simp
    · simp [h]

/-- C9 witness: the resolution theorem applied to a booking detail path,
which resolves by prefix, and to a path outside the table, which falls
back to Dashboard. -/
theorem getPageTitle_resolution_witness :
    getPageTitle "/dashboard/bookings/123" = "Bookings" ∧
    getPageTitle "/profile" = "Dashboard" :=
  ⟨getPageTitle_resolution.2.1 "/dashboard/bookings/123" "/dashboard/bookings"
      "Bookings" (by decide) (by decide) (by decide) (by decide),
   getPageTitle_resolution.2.2.1 "/profile" (by decide) (by decide)⟩

/-- C1: a cache hit served by the cache layer is identical to the cold
computation over the current rule generation, and a get after a
precompute that covered the key, with rules unchanged, returns exactly
the cold computation for that key as a hit. -/
theorem cache_hit_eq_cold_computation {Rules Slot : Type}
    (compute : Rules → CacheKey → List Slot) :
    (∀ (s : EngineState Rules Slot) (k : CacheKey) (slots : List Slot),
        EngineInv compute s → (cacheGet compute s k).1 = (slots, true) →
        slots = compute (s.rules k.organizer_id) k) ∧
    (∀ (s : EngineState Rules Slot) (ks : List CacheKey) (k : CacheKey), k ∈ ks →
        (cacheGet compute (cachePrecompute compute s ks) k).1 =
          (compute (s.rules k.organizer_id) k, true)) := by
  constructor
  · intro s k slots hinv hget
    cases hc : s.cache k with
    | none =>
      simp only [cacheGet, hc] at hget
      injection hget with h1 h2
      exact Bool.noConfusion h2
    | some v =>
      rcases v with ⟨slots0, g⟩
      simp only [cacheGet, hc] at hget
      by_cases hg : g = s.gen k.organizer_id
      · rw [if_pos hg] at hget
        injection hget with h1 h2
        exact h1 ▸ hinv.1 k slots0 g hc hg
      · rw [if_neg hg] at hget
        injection hget with h1 h2
        exact Bool.noConfusion h2
  · intro s ks k hk
    have hcache := cachePrecompute_cache_mem compute s ks k hk
    have hgen := cachePrecompute_gen compute s ks
    simp only [cacheGet, hcache, hgen]
    rw [if_pos trivial]

/-- Concrete cold computation used by the cache witnesses. -/
def computeW : Nat → CacheKey → List Nat := fun r k => [r + k.organizer_id]

/-- Concrete cache key used by the cache witnesses. -/
def keyW : CacheKey :=
  { organizer_id := 2, event_type_id := 1, window_start := 0, window_end := 7,
    timezone := "UTC" }

/-- Concrete engine state with an empty cache. -/
def stateW0 : EngineState Nat Nat :=
  { rules := fun _ => 3, gen := fun _ => 0, cache := fun _ => none }

/-- Concrete engine state caching keyW at generation zero. -/
def stateW1 : EngineState Nat Nat :=
  { rules := fun _ => 3, gen := fun _ => 0,
    cache := fun k => if k = keyW then some ([5], 0) else none }

theorem engineInv_stateW0 : EngineInv computeW stateW0 := by
  constructor <;> intro k slots g h <;> exact Option.noConfusion h

theorem engineInv_stateW1 : EngineInv computeW stateW1 := by
  constructor
  · intro k slots g h hg
    by_cases hk : k = keyW
    · subst hk
      rw [show stateW1.cache keyW = some ([5], 0) by simp [stateW1]] at h
      injection h with h
      injection h with h1 h2
      subst h1
      decide
    · rw [show stateW1.cache k = none by simp [stateW1, hk]] at h
      exact Option.noConfusion h
  · intro k slots g h
    by_cases hk : k = keyW
    · subst hk
      rw [show stateW1.cache keyW = some ([5], 0) by simp [stateW1]] at h
      injection h with h
      injection h with h1 h2
      subst h2
      exact Nat.zero_le _
    · rw [show stateW1.cache k = none by simp [stateW1, hk]] at h
      exact Option.noConfusion h

/-- C1 witness: the round-trip law and the hit law of the cache theorem
applied to a concrete engine, state and key. -/
theorem cache_hit_eq_cold_computation_witness :
    (cacheGet computeW (cachePrecompute computeW stateW0 [keyW]) keyW).1 =
      (computeW (stateW0.rules keyW.organizer_id) keyW, true) ∧
    ([5] : List Nat) = computeW
      ((cachePrecompute computeW stateW0 [keyW]).rules keyW.organizer_id) keyW := by
  constructor
  · exact (cache_hit_eq_cold_computation computeW).2 stateW0 [keyW] keyW
      (List.mem_singleton.mpr rfl)
  · exact (cache_hit_eq_cold_computation computeW).1
      (cachePrecompute computeW stateW0 [keyW]) keyW [5]
      (engineInv_cacheStore computeW stateW0 keyW engineInv_stateW0)
      (by decide)

/-- C2: after a committed rule mutation for an organizer, any query for a
key of that organizer, after any further operations, that is served as a
cache hit is served from an entry stamped strictly beyond the
pre-mutation generation, hence beyond the stamp of every entry cached
before the mutation: no pre-mutation result is ever served as a hit. -/
theorem no_stale_hit_after_mutation {Rules Slot : Type}
    (compute : Rules → CacheKey → List Slot) (s : EngineState Rules Slot)
    (o : Nat) (r : Rules) (ops : List (EngineOp Rules)) (k : CacheKey)
    (slots : List Slot) (g : Nat)
    (hinv : EngineInv compute s) (hk : k.organizer_id = o)
    (hcache : (execOps compute (mutateRules s o r) ops).cache k = some (slots, g))
    (hhit : ((cacheGet compute (execOps compute (mutateRules s o r) ops) k).1).2 = true) :
    s.gen o < g ∧ ∀ (slots0 : List Slot) (g0 : Nat),
      s.cache k = some (slots0, g0) → g0 < g := by
  set s2 := execOps compute (mutateRules s o r) ops with hs2
  have hgstamp : g = s2.gen k.organizer_id := by
    simp only [cacheGet, hcache] at hhit
    by_cases hg : g = s2.gen k.organizer_id
    · exact hg
    · rw [if_neg hg] at hhit
      simp at hhit
  have hmono : (mutateRules s o r).gen o ≤ s2.gen o :=
    gen_le_execOps compute (mutateRules s o r) ops o
  have hbump : (mutateRules s o r).gen o = s.gen o + 1 := mutateRules_gen_self s o r
  have hlt : s.gen o < g := by
    rw [hgstamp, hk]
    omega
  refine ⟨hlt, ?_⟩
  intro slots0 g0 hc0
  have hst := hinv.2 k slots0 g0 hc0
  rw [hk] at hst
  omega

/-- C2 witness: the invalidation theorem applied to a concrete engine in
which the key was cached, the rules of its organizer are mutated, and the
key is queried again. -/
theorem no_stale_hit_after_mutation_witness :
    stateW1.gen 2 < 1 ∧ (0 : Nat) < 1 := by
  have h := no_stale_hit_after_mutation computeW stateW1 2 7
    [EngineOp.query keyW] keyW [9] 1 engineInv_stateW1 rfl (by decide) (by decide)
  exact ⟨h.1, h.2 [5] 0 (by decide)⟩
